import Mathlib

/-!
Shallow embedding of the VoiceCalculator component (VoiceCalculator.tsx and
types.ts) of the voice-driven calculator repository.

The component keeps its state in React state hooks and refs:
`connectionState`, `displayText`, `expression`, `history`, `analyser`,
`inputAudioContextRef`, `outputAudioContextRef`, `streamRef`, `sessionRef`,
`nextStartTimeRef`, `sourcesRef`, `currentInputRef`, `isResultFinalRef`.
All of these are gathered into one record `VCState`; the console log stream
is modelled as a list of strings so that logging behaviour is observable.

Opaque browser resources (audio contexts, media stream, analyser node,
session handle, playback source nodes) are represented by numeric handles.
Device clock values and buffer durations are rationals.
-/

namespace VoiceCalc

/-- The `ConnectionState` enum from types.ts. -/
inductive ConnectionState
  | DISCONNECTED
  | CONNECTING
  | CONNECTED
  | ERROR
  deriving DecidableEq, Repr

/-- One entry of `message.toolCall.functionCalls`: an id, a name, and the
`args` map, of which the component reads only the `text` field
(`(fc.args as any).text`); `argText = none` models an absent `text` field,
i.e. the JavaScript value `undefined`. -/
structure FunctionCall where
  id : String
  name : String
  argText : Option String
  deriving DecidableEq, Repr

/-- One entry pushed onto `functionResponses`: `{id, name, response: {result}}`. -/
structure FunctionResponse where
  id : String
  name : String
  result : String
  deriving DecidableEq, Repr

/-- The whole mutable state of the component: React state plus refs.
`displayText = none` models the variable holding JavaScript `undefined`. -/
structure VCState where
  connectionState : ConnectionState
  displayText : Option String
  expression : String
  history : List String
  analyser : Option Nat
  inputAudioContext : Option Nat
  outputAudioContext : Option Nat
  stream : Option Nat
  session : Option Nat
  nextStartTime : ℚ
  sources : Finset Nat
  currentInput : String
  isResultFinal : Bool
  console : List String
  deriving DecidableEq

/-- The component's initial state (the `useState`/`useRef` initial values). -/
def initState : VCState where
  connectionState := .DISCONNECTED
  displayText := some "音声入力を開始"
  expression := ""
  history := []
  analyser := none
  inputAudioContext := none
  outputAudioContext := none
  stream := none
  session := none
  nextStartTime := 0
  sources := ∅
  currentInput := ""
  isResultFinal := false
  console := []

/-- JavaScript template-literal coercion of a possibly-undefined string:
an absent value prints as "undefined". -/
def jsString : Option String → String
  | some s => s
  | none => "undefined"

/-- Step 1 of `onmessage`: the transcription branch
(`if (inputTr && inputTr.text) { ... }`, lines 158-170).  The guard is JS
truthiness, so a missing transcription part or an empty text string skips
the branch entirely.  If `isResultFinal` is set, the buffer and displayed
expression are cleared and the flag dropped before the fragment is appended;
afterwards the buffer is published as the displayed expression. -/
def handleTranscription (st : VCState) (tr : Option String) : VCState :=
  match tr with
  | none => st
  | some txt =>
      if txt = "" then st
      else
        let st1 :=
          if st.isResultFinal then
            { st with currentInput := "", expression := "", isResultFinal := false }
          else st
        { st1 with currentInput := st1.currentInput ++ txt,
                   expression := st1.currentInput ++ txt }

/-- One iteration of the `for (const fc of message.toolCall.functionCalls)`
loop (lines 176-196): `displayResult` sets the display text to `args.text`
(possibly undefined), prepends `` `${currentInputRef.current} = ${text}` ``
to the history and truncates with `.slice(0, 10)`, and sets the finalized
flag; `resetApp` resets the display, expression, buffer and history; any
other name changes nothing.  Every branch pushes `{id, name, response:
{result: "ok"}}`. -/
def handleFunctionCall (st : VCState) (fc : FunctionCall) : VCState × FunctionResponse :=
  if fc.name = "displayResult" then
    ({ st with
        displayText := fc.argText,
        history := ((st.currentInput ++ " = " ++ jsString fc.argText) :: st.history).take 10,
        isResultFinal := true },
     { id := fc.id, name := fc.name, result := "ok" })
  else if fc.name = "resetApp" then
    ({ st with displayText := some "0", expression := "", currentInput := "",
               history := [], isResultFinal := false },
     { id := fc.id, name := fc.name, result := "ok" })
  else
    (st, { id := fc.id, name := fc.name, result := "ok" })

/-- The whole tool-call loop: processes the calls in order and collects the
`functionResponses` array in push order. -/
def handleToolBatch (st : VCState) : List FunctionCall → VCState × List FunctionResponse
  | [] => (st, [])
  | fc :: rest =>
      let r := handleFunctionCall st fc
      let rr := handleToolBatch r.1 rest
      (rr.1, r.2 :: rr.2)

/-- Record of one scheduled playback buffer, observed at `source.start`:
the device clock read `ct`, the value of `nextStartTimeRef` before the
update, the actual start time passed to `source.start`, and the buffer's
duration. -/
structure Sched where
  ct : ℚ
  prevNext : ℚ
  start : ℚ
  dur : ℚ
  deriving DecidableEq, Repr

/-- Step 3 of `onmessage`: the audio branch (lines 203-224).
Modelled from the spec: `decode`/`decodeAudioData` live in
`utils/audioUtils`, which is not among the provided sources, so a
fragment's decode step is represented by its outcome — `some d` for a
successful decode into a buffer of duration `d`, `none` for a DecodeFailure
(the awaited decode throwing).  Faithful to the source ordering, the
assignment `nextStartTimeRef.current = Math.max(nextStartTimeRef.current,
ctx.currentTime)` happens before the decode, so a failing fragment still
leaves that update behind; on success the buffer is started at the updated
cursor, the cursor advances by the buffer's duration, and the source handle
joins `sourcesRef`.  The second component reports what was scheduled. -/
def scheduleChunk (st : VCState) (ct : ℚ) (decoded : Option ℚ) (srcHandle : Nat) :
    VCState × Option Sched :=
  match st.outputAudioContext with
  | none => (st, none)
  | some _ =>
      let startAt := max st.nextStartTime ct
      match decoded with
      | none => ({ st with nextStartTime := startAt }, none)
      | some d =>
          ({ st with nextStartTime := startAt + d,
                     sources := insert srcHandle st.sources },
           some { ct := ct, prevNext := st.nextStartTime, start := startAt, dur := d })

/-- Processes a sequence of inbound audio fragments in arrival order; each
element carries the device clock at processing time, the decode outcome and
the fresh source handle.  Collects the scheduled-buffer records. -/
def runChunks (st : VCState) : List (ℚ × Option ℚ × Nat) → VCState × List Sched
  | [] => (st, [])
  | (ct, dec, h) :: rest =>
      let r := scheduleChunk st ct dec h
      let rr := runChunks r.1 rest
      (rr.1, r.2.toList ++ rr.2)

/-- An inbound `LiveServerMessage` as the handler reads it: the optional
`serverContent.inputTranscription.text`, the optional `toolCall.functionCalls`
batch, and the optional audio part (device clock, decode outcome, handle). -/
structure AudioChunk where
  ct : ℚ
  decoded : Option ℚ
  srcHandle : Nat
  deriving DecidableEq, Repr

structure LiveMsg where
  inputTranscription : Option String
  toolCall : Option (List FunctionCall)
  audio : Option AudioChunk
  deriving DecidableEq, Repr

/-- Outbound transport messages the `onmessage` handler can emit: a single
`sendToolResponse` carrying the whole batch of acknowledgements. -/
inductive Outbound
  | toolResponse (responses : List FunctionResponse)
  deriving DecidableEq, Repr

/-- The `onmessage` callback (lines 156-225): transcription branch, then the
tool-call branch (which logs "Tool Call:" and sends one `sendToolResponse`
with all collected responses), then the audio branch. -/
def onmessage (st : VCState) (msg : LiveMsg) : VCState × List Outbound :=
  let st1 := handleTranscription st msg.inputTranscription
  let step2 :=
    match msg.toolCall with
    | none => (st1, ([] : List Outbound))
    | some calls =>
        let st1' := { st1 with console := st1.console ++ ["Tool Call:"] }
        let r := handleToolBatch st1' calls
        (r.1, [Outbound.toolResponse r.2])
  let st3 :=
    match msg.audio with
    | none => step2.1
    | some a => (scheduleChunk step2.1 a.ct a.decoded a.srcHandle).1
  (st3, step2.2)

/-- The `cleanup` callback (lines 64-93): stop and drop the media stream,
close and drop both audio contexts, close the session best-effort (a
throwing `session.close()` is caught and logged as a warning —
`sessionCloseThrows` says whether it throws), stop every playback source
and clear the set, reset the connection state, analyser, transcription
buffer and finalized flag.  The display text, expression, history and
playback cursor are not touched. -/
def cleanup (st : VCState) (sessionCloseThrows : Bool) : VCState :=
  let st1 := { st with stream := none }
  let st2 := { st1 with inputAudioContext := none }
  let st3 := { st2 with outputAudioContext := none }
  let st4 :=
    match st3.session with
    | none => st3
    | some _ =>
        if sessionCloseThrows then
          { st3 with session := none, console := st3.console ++ ["Error closing session"] }
        else
          { st3 with session := none }
  { st4 with sources := ∅,
             connectionState := .DISCONNECTED,
             analyser := none,
             currentInput := "",
             isResultFinal := false }

/-- Environment of one `connect()` attempt: whether the API key resolves,
whether `getUserMedia` succeeds, and the handles of the resources acquired
on the successful path. -/
structure ConnectEnv where
  apiKeyPresent : Bool
  micGranted : Bool
  inputCtxHandle : Nat
  outputCtxHandle : Nat
  streamHandle : Nat
  analyserHandle : Nat
  sessionHandle : Nat
  deriving DecidableEq, Repr

/-- The `connect` function (lines 95-244) up to the point where the session
promise is stored.  It unconditionally sets CONNECTING first; a missing API
key throws before any resource is created; the audio contexts are created
and stored before `getUserMedia` is awaited, so a microphone failure leaves
them behind; any failure is caught, logged and settles at ERROR.  On the
successful path the state remains CONNECTING (CONNECTED is set only by the
`onopen` callback). -/
def connect (st : VCState) (env : ConnectEnv) : VCState :=
  let st1 := { st with connectionState := .CONNECTING }
  if env.apiKeyPresent = false then
    { st1 with console := st1.console ++ ["Connection failed"],
               connectionState := .ERROR }
  else
    let st2 := { st1 with inputAudioContext := some env.inputCtxHandle,
                          outputAudioContext := some env.outputCtxHandle }
    if env.micGranted = false then
      { st2 with console := st2.console ++ ["Connection failed"],
                 connectionState := .ERROR }
    else
      { st2 with stream := some env.streamHandle,
                 analyser := some env.analyserHandle,
                 session := some env.sessionHandle }

/-- `toggleConnection` (lines 246-252): cleanup when CONNECTED or
CONNECTING, otherwise connect. -/
def toggleConnection (st : VCState) (env : ConnectEnv) (b : Bool) : VCState :=
  if st.connectionState = .CONNECTED ∨ st.connectionState = .CONNECTING then
    cleanup st b
  else
    connect st env

/-- `handleManualReset` (lines 258-264). -/
def manualReset (st : VCState) : VCState :=
  { st with displayText := some "0", expression := "", history := [],
            currentInput := "", isResultFinal := false }

/-- The `onopen` callback (lines 140-155): logs and moves to CONNECTED. -/
def onopen (st : VCState) : VCState :=
  { st with connectionState := .CONNECTED,
            console := st.console ++ ["Gemini Live Connected"] }

/-- The `onclose` callback (lines 226-229). -/
def onclose (st : VCState) : VCState :=
  { st with connectionState := .DISCONNECTED,
            console := st.console ++ ["Gemini Live Closed"] }

/-- The `onerror` callback (lines 230-234): log, set ERROR, then cleanup. -/
def onerror (st : VCState) (b : Bool) : VCState :=
  cleanup { st with connectionState := .ERROR,
                    console := st.console ++ ["Gemini Live Error"] } b

/-- The `ended` listener of a playback source (lines 217-219). -/
def onended (st : VCState) (srcHandle : Nat) : VCState :=
  { st with sources := st.sources.erase srcHandle }

/-- States reachable from the initial state through the component's
event handlers and user intents. -/
inductive Reachable : VCState → Prop
  | init : Reachable initState
  | msg (s : VCState) (m : LiveMsg) : Reachable s → Reachable (onmessage s m).1
  | clean (s : VCState) (b : Bool) : Reachable s → Reachable (cleanup s b)
  | conn (s : VCState) (env : ConnectEnv) : Reachable s → Reachable (connect s env)
  | toggle (s : VCState) (env : ConnectEnv) (b : Bool) :
      Reachable s → Reachable (toggleConnection s env b)
  | reset (s : VCState) : Reachable s → Reachable (manualReset s)
  | opened (s : VCState) : Reachable s → Reachable (onopen s)
  | closed (s : VCState) : Reachable s → Reachable (onclose s)
  | errored (s : VCState) (b : Bool) : Reachable s → Reachable (onerror s b)
  | ended (s : VCState) (h : Nat) : Reachable s → Reachable (onended s h)

/-- Concatenation of a list of fragments in delivery order. -/
def concatAll : List String → String
  | [] => ""
  | t :: ts => t ++ concatAll ts

/-- Delivery of a sequence of transcription-only messages. -/
def runFragments (st : VCState) (ts : List String) : VCState :=
  ts.foldl
    (fun s t =>
      (onmessage s { inputTranscription := some t, toolCall := none, audio := none }).1)
    st

/-! ## Helper lemmas -/

/-- A transcription-only message reduces to the transcription branch. -/
lemma onmessage_transcription (st : VCState) (t : String) :
    (onmessage st { inputTranscription := some t, toolCall := none, audio := none }).1 =
      handleTranscription st (some t) := rfl

/-- Invariant of the transcription accumulator: starting with the finalized
flag down and the displayed expression in sync with the buffer, delivering
any fragment sequence yields their concatenation appended to the buffer,
keeps expression and buffer in sync, and leaves the flag down. -/
lemma runFragments_spec (ts : List String) :
    ∀ st : VCState, st.isResultFinal = false → st.expression = st.currentInput →
      (runFragments st ts).expression = st.currentInput ++ concatAll ts ∧
      (runFragments st ts).currentInput = st.currentInput ++ concatAll ts ∧
      (runFragments st ts).isResultFinal = false := by
  induction ts with
  | nil =>
      intro st hfin hexp
      simp [runFragments, concatAll, hexp, hfin]
  | cons t ts ih =>
      intro st hfin hexp
      have hstep : runFragments st (t :: ts) =
          runFragments (handleTranscription st (some t)) ts := rfl
      rcases eq_or_ne t "" with ht | ht
      · subst ht
        have h1 : handleTranscription st (some "") = st := by
          simp [handleTranscription]
        rw [hstep, h1]
        have := ih st hfin hexp
        simpa [concatAll, String.empty_append] using this
      · have h1 : handleTranscription st (some t) =
            { st with currentInput := st.currentInput ++ t,
                      expression := st.currentInput ++ t } := by
          simp [handleTranscription, ht, hfin]
        rw [hstep, h1]
        have := ih { st with currentInput := st.currentInput ++ t,
                             expression := st.currentInput ++ t } hfin rfl
        simpa [concatAll, String.append_assoc] using this

/-- Every branch of the tool-call loop acknowledges with the call's id and
name and the success marker "ok". -/
lemma handleFunctionCall_response (st : VCState) (fc : FunctionCall) :
    (handleFunctionCall st fc).2 = { id := fc.id, name := fc.name, result := "ok" } := by
  unfold handleFunctionCall
  split <;> [rfl; split <;> rfl]

/-- The batch loop produces exactly one "ok" acknowledgement per call, in
order, regardless of the state it starts from. -/
lemma handleToolBatch_responses (calls : List FunctionCall) :
    ∀ st : VCState, (handleToolBatch st calls).2 =
      calls.map (fun fc => { id := fc.id, name := fc.name, result := "ok" }) := by
  induction calls with
  | nil => intro st; rfl
  | cons fc rest ih =>
      intro st
      unfold handleToolBatch
      simp [handleFunctionCall_response, ih]

/-! ## Claims -/

/-- C2: for every inbound tool-call batch, the dispatcher produces exactly
one acknowledgement per call — the acknowledgement list is the calls mapped
to their id, name and the success marker "ok" (also for names other than
displayResult and resetApp) — and the `onmessage` handler emits them back
as one single outbound `sendToolResponse` message. -/
theorem claim_C2 (st : VCState) (msg : LiveMsg) (calls : List FunctionCall)
    (hmsg : msg.toolCall = some calls) :
    (handleToolBatch st calls).2.length = calls.length ∧
    (handleToolBatch st calls).2 =
      calls.map (fun fc => { id := fc.id, name := fc.name, result := "ok" }) ∧
    (onmessage st msg).2 =
      [Outbound.toolResponse
        (calls.map (fun fc => { id := fc.id, name := fc.name, result := "ok" }))] := by
  refine ⟨?_, handleToolBatch_responses calls st, ?_⟩
  · rw [handleToolBatch_responses calls st]; simp
  · simp only [onmessage, hmsg]
    rw [handleToolBatch_responses]

/-- Concrete tool-call batch used to witness C2: one displayResult call and
one call with an unrecognized name. -/
def callsC2 : List FunctionCall :=
  [{ id := "1", name := "displayResult", argText := some "8" },
   { id := "2", name := "mysteryTool", argText := none }]

def msgC2 : LiveMsg :=
  { inputTranscription := none, toolCall := some callsC2, audio := none }

/-- Witness for C2 at a concrete batch containing an unrecognized call. -/
theorem claim_C2_witness :
    msgC2.toolCall = some callsC2 ∧
    ((handleToolBatch initState callsC2).2.length = callsC2.length ∧
     (handleToolBatch initState callsC2).2 =
       callsC2.map (fun fc => { id := fc.id, name := fc.name, result := "ok" }) ∧
     (onmessage initState msgC2).2 =
       [Outbound.toolResponse
         (callsC2.map (fun fc => { id := fc.id, name := fc.name, result := "ok" }))]) :=
  ⟨rfl, claim_C2 initState msgC2 callsC2 rfl⟩

/-- C3: delivering any sequence of transcription fragments from the initial
state (where no result has been finalized, and none becomes finalized along
the way) leaves the displayed expression equal to the concatenation of the
fragments' texts in delivery order. -/
theorem claim_C3 (ts : List String) :
    (runFragments initState ts).expression = concatAll ts ∧
    (runFragments initState ts).isResultFinal = false := by
  have h := runFragments_spec ts initState rfl rfl
  refine ⟨?_, h.2.2⟩
  have := h.1
  simpa [initState, String.empty_append] using this

/-- State just after a finalized result with expression "3+5". -/
def stFinal : VCState :=
  { initState with currentInput := "3+5", expression := "3+5",
                   displayText := some "8", isResultFinal := true }

/-- Refutation of C4 as stated: a transcription fragment whose text is the
empty string arrives while ResultFinalized is true, yet the accumulator does
not clear anything and does not drop the flag — the handler's truthiness
guard (`if (inputTr && inputTr.text)`) skips empty-text fragments entirely,
so the displayed expression stays "3+5" and the flag stays true, where the
claim requires the expression to become "" and the flag false. -/
theorem claim_C4_counterexample :
    (handleTranscription stFinal (some "")).expression = "3+5" ∧
    (handleTranscription stFinal (some "")).isResultFinal = true := ⟨rfl, rfl⟩

/-- C4 (amended): for every transcription fragment with non-empty text that
arrives while ResultFinalized is true, the accumulator first clears the
buffer and the displayed expression and drops the flag, then appends the
fragment (empty-text fragments are skipped by the truthiness guard). -/
theorem claim_C4 (st : VCState) (txt : String) (hne : txt ≠ "")
    (hfin : st.isResultFinal = true) :
    handleTranscription st (some txt) =
      { st with currentInput := txt, expression := txt, isResultFinal := false } := by
  simp [handleTranscription, hne, hfin, String.empty_append]

/-- Witness for C4: after a finalized result with prior expression "3+5", a
fragment "7" yields displayed expression "7", not "3+57". -/
theorem claim_C4_witness :
    (("7" : String) ≠ "" ∧ stFinal.isResultFinal = true) ∧
    handleTranscription stFinal (some "7") =
      { stFinal with currentInput := "7", expression := "7", isResultFinal := false } :=
  ⟨⟨by decide, rfl⟩, claim_C4 stFinal "7" (by decide) rfl⟩

/-- States used to refute C5: same history, different buffers. -/
def stC5a : VCState := { initState with currentInput := "1" }

def stC5b : VCState := { initState with currentInput := "1 = 2" }

/-- Refutation of C5 as stated: the history entry is not a structured
record {expression, result, timestamp} — the code stores the flat formatted
string `` `${expression} = ${result}` `` and no timestamp at all.  Two
displayResult calls whose claimed records differ in both expression and
result fields produce identical history heads ("1 = 2 = 3"), which is
impossible for a head that is exactly the structured record of the claim. -/
theorem claim_C5_counterexample :
    (handleFunctionCall stC5a { id := "a", name := "displayResult", argText := some "2 = 3" }).1.history =
      (handleFunctionCall stC5b { id := "b", name := "displayResult", argText := some "3" }).1.history ∧
    stC5a.currentInput ≠ stC5b.currentInput ∧
    (some "2 = 3" : Option String) ≠ some "3" := by
  refine ⟨by decide, by decide, by decide⟩

/-- C5 (amended): for every displayResult(text) call, the displayed result
becomes text, the flat string `currentInput ++ " = " ++ text` (not a
structured record, and with no timestamp) is inserted at the head of the
history, ResultFinalized becomes true, and the call is acknowledged with
"ok"; in particular with prior expression "3+5" and text "8" the head is
the string "3+5 = 8". -/
theorem claim_C5 (st : VCState) (i t : String) :
    (handleFunctionCall st { id := i, name := "displayResult", argText := some t }).1.displayText
        = some t ∧
    (handleFunctionCall st { id := i, name := "displayResult", argText := some t }).1.history.head?
        = some (st.currentInput ++ " = " ++ t) ∧
    (handleFunctionCall st { id := i, name := "displayResult", argText := some t }).1.isResultFinal
        = true ∧
    (handleFunctionCall st { id := i, name := "displayResult", argText := some t }).2
        = { id := i, name := "displayResult", result := "ok" } := by
  refine ⟨?_, ?_, ?_, ?_⟩ <;>
    simp [handleFunctionCall, jsString, List.take_succ_cons]

/-- C10: a displayResult call whose argument map lacks the `text` field is
still processed and acknowledged with "ok": the displayed result becomes
the absent (undefined) value, a history entry built from the current buffer
and the JavaScript rendering of that absent value ("undefined") is still
prepended (truncated to 10), and ResultFinalized still becomes true — no
validation is performed anywhere on the path. -/
theorem claim_C10 (st : VCState) (i : String) :
    handleFunctionCall st { id := i, name := "displayResult", argText := none } =
      ({ st with displayText := none,
                 history := ((st.currentInput ++ " = " ++ jsString none) :: st.history).take 10,
                 isResultFinal := true },
       { id := i, name := "displayResult", result := "ok" }) := by
  simp [handleFunctionCall]

/-- Neither branch of the per-call dispatch can push the history past 10
entries. -/
lemma handleFunctionCall_history_le (st : VCState) (fc : FunctionCall)
    (h : st.history.length ≤ 10) :
    (handleFunctionCall st fc).1.history.length ≤ 10 := by
  unfold handleFunctionCall
  split
  · simp [List.length_take]
  · split
    · simp
    · simpa using h

/-- The batch loop preserves the history bound. -/
lemma handleToolBatch_history_le (calls : List FunctionCall) :
    ∀ st : VCState, st.history.length ≤ 10 →
      (handleToolBatch st calls).1.history.length ≤ 10 := by
  induction calls with
  | nil => intro st h; simpa [handleToolBatch] using h
  | cons fc rest ih =>
      intro st h
      unfold handleToolBatch
      exact ih _ (handleFunctionCall_history_le st fc h)

/-- The transcription branch never touches the history. -/
lemma handleTranscription_history (st : VCState) (tr : Option String) :
    (handleTranscription st tr).history = st.history := by
  unfold handleTranscription
  split
  · rfl
  · split
    · rfl
    · split <;> rfl

/-- The audio branch never touches the history. -/
lemma scheduleChunk_history (st : VCState) (ct : ℚ) (dec : Option ℚ) (h : Nat) :
    (scheduleChunk st ct dec h).1.history = st.history := by
  unfold scheduleChunk
  split
  · rfl
  · split <;> rfl

/-- The message handler preserves the history bound. -/
lemma onmessage_history_le (st : VCState) (m : LiveMsg)
    (h : st.history.length ≤ 10) :
    (onmessage st m).1.history.length ≤ 10 := by
  unfold onmessage
  have h1 : (handleTranscription st m.inputTranscription).history.length ≤ 10 := by
    rw [handleTranscription_history]; exact h
  cases hm : m.toolCall with
  | none =>
      cases m.audio with
      | none => simpa [hm] using h1
      | some a => simpa [hm, scheduleChunk_history] using h1
  | some calls =>
      have h2 := handleToolBatch_history_le calls
        { handleTranscription st m.inputTranscription with
          console := (handleTranscription st m.inputTranscription).console ++ ["Tool Call:"] }
        (by simpa using h1)
      cases m.audio with
      | none => simpa [hm] using h2
      | some a => simpa [hm, scheduleChunk_history] using h2

/-- Cleanup never touches the history. -/
lemma cleanup_history (st : VCState) (b : Bool) :
    (cleanup st b).history = st.history := by
  cases hs : st.session <;> cases b <;> simp [cleanup, hs]

/-- Connect never touches the history. -/
lemma connect_history (st : VCState) (env : ConnectEnv) :
    (connect st env).history = st.history := by
  unfold connect
  split
  · rfl
  · split <;> rfl

/-- Every reachable state keeps at most 10 history entries. -/
lemma reachable_history_le (st : VCState) (h : Reachable st) :
    st.history.length ≤ 10 := by
  induction h with
  | init => simp [initState]
  | msg s m _ ih => exact onmessage_history_le s m ih
  | clean s b _ ih => rw [cleanup_history]; exact ih
  | conn s env _ ih => rw [connect_history]; exact ih
  | toggle s env b _ ih =>
      unfold toggleConnection
      split
      · rw [cleanup_history]; exact ih
      · rw [connect_history]; exact ih
  | reset s _ _ => simp [manualReset]
  | opened s _ ih => simpa [onopen] using ih
  | closed s _ ih => simpa [onclose] using ih
  | errored s b _ ih => rw [onerror, cleanup_history]; simpa using ih
  | ended s hd _ ih => simpa [onended] using ih

/-- C6: in every reachable state the history holds at most 10 entries, and
for every displayResult call applied to it the history still holds at most
10 entries; insertion happens at the head, and when the log already holds
10 entries the new log is the new entry followed by the first 9 old entries
— the 10th (oldest) entry is evicted. -/
theorem claim_C6 (st : VCState) (h : Reachable st) :
    st.history.length ≤ 10 ∧
    ∀ i : String, ∀ t : Option String,
      (handleFunctionCall st { id := i, name := "displayResult", argText := t }).1.history.length ≤ 10 ∧
      (handleFunctionCall st { id := i, name := "displayResult", argText := t }).1.history.head? =
        some (st.currentInput ++ " = " ++ jsString t) ∧
      (st.history.length = 10 →
        (handleFunctionCall st { id := i, name := "displayResult", argText := t }).1.history =
          (st.currentInput ++ " = " ++ jsString t) :: st.history.take 9) := by
  have hle := reachable_history_le st h
  refine ⟨hle, fun i t =>
    ⟨handleFunctionCall_history_le st _ hle, ?_, fun _ => ?_⟩⟩ <;>
    simp [handleFunctionCall, List.take_succ_cons]

/-- Witness for C6 at the (reachable) initial state. -/
theorem claim_C6_witness :
    initState.history.length ≤ 10 ∧
    ∀ i : String, ∀ t : Option String,
      (handleFunctionCall initState { id := i, name := "displayResult", argText := t }).1.history.length ≤ 10 ∧
      (handleFunctionCall initState { id := i, name := "displayResult", argText := t }).1.history.head? =
        some (initState.currentInput ++ " = " ++ jsString t) ∧
      (initState.history.length = 10 →
        (handleFunctionCall initState { id := i, name := "displayResult", argText := t }).1.history =
          (initState.currentInput ++ " = " ++ jsString t) :: initState.history.take 9) :=
  claim_C6 initState Reachable.init

/-- C7: teardown is idempotent and safe from any state.  From every state —
in particular from the state left by a still-pending connect() — cleanup
results in ConnectionState DISCONNECTED, an empty playback-source set, a
cleared transcription buffer and finalized flag, and every resource
dropped; it is a total function (each release step is guarded by a null
check, and a throwing session close is caught), its state result does not
depend on whether the session close throws except for the logged warning,
and running it a second time changes nothing further. -/
theorem claim_C7 (st : VCState) (b b' : Bool) (env : ConnectEnv) :
    (cleanup st b).connectionState = ConnectionState.DISCONNECTED ∧
    (cleanup st b).sources = ∅ ∧
    (cleanup st b).currentInput = "" ∧
    (cleanup st b).isResultFinal = false ∧
    (cleanup st b).analyser = none ∧
    (cleanup st b).stream = none ∧
    (cleanup st b).session = none ∧
    (cleanup st b).inputAudioContext = none ∧
    (cleanup st b).outputAudioContext = none ∧
    cleanup (cleanup st b) b' = cleanup st b ∧
    (cleanup (connect st env) b).connectionState = ConnectionState.DISCONNECTED ∧
    (cleanup (connect st env) b).sources = ∅ ∧
    (cleanup (connect st env) b).currentInput = "" ∧
    (cleanup (connect st env) b).isResultFinal = false := by
  refine ⟨?_, ?_, ?_, ?_, ?_, ?_, ?_, ?_, ?_, ?_, ?_, ?_, ?_, ?_⟩ <;>
    cases hk : env.apiKeyPresent <;> cases hm : env.micGranted <;>
      cases hs : st.session <;> cases b <;> cases b' <;>
        simp [cleanup, connect, hs, hk, hm]

/-- A connect environment in which every acquisition succeeds. -/
def goodEnv : ConnectEnv :=
  { apiKeyPresent := true, micGranted := true, inputCtxHandle := 1,
    outputCtxHandle := 2, streamHandle := 3, analyserHandle := 4, sessionHandle := 5 }

/-- A reachable ERROR state: a connect() attempt with a missing API key. -/
def stError : VCState :=
  connect initState { goodEnv with apiKeyPresent := false }

/-- Refutation of C9 as stated: connect() has no state guard, so calling it
in the ERROR state (which is not DISCONNECTED) is not a no-op — it moves
the state to CONNECTING and acquires the transport session and device
resources. -/
theorem claim_C9_counterexample :
    stError.connectionState = ConnectionState.ERROR ∧
    connect stError goodEnv ≠ stError ∧
    (connect stError goodEnv).connectionState = ConnectionState.CONNECTING ∧
    (connect stError goodEnv).session = some 5 ∧
    stError.session = none := by
  refine ⟨rfl, ?_, rfl, rfl, rfl⟩
  intro h
  have hc := congrArg VCState.connectionState h
  simp only [stError] at hc
  exact absurd hc (by decide)

/-- C9 (amended): connect() itself performs no state check — from any
state, Error included, it first transitions to CONNECTING and proceeds to
acquire resources, ending at CONNECTING when acquisition succeeds and at
ERROR otherwise.  The only guard lives in toggleConnection, which invokes
cleanup instead of connect exactly when the state is CONNECTED or
CONNECTING, so connect is never entered from those two states through the
UI; from DISCONNECTED and from ERROR it is entered and is not a no-op. -/
theorem claim_C9 (st : VCState) (env : ConnectEnv) (b : Bool) :
    toggleConnection { st with connectionState := .CONNECTED } env b =
      cleanup { st with connectionState := .CONNECTED } b ∧
    toggleConnection { st with connectionState := .CONNECTING } env b =
      cleanup { st with connectionState := .CONNECTING } b ∧
    toggleConnection { st with connectionState := .ERROR } env b =
      connect { st with connectionState := .ERROR } env ∧
    toggleConnection { st with connectionState := .DISCONNECTED } env b =
      connect { st with connectionState := .DISCONNECTED } env ∧
    (connect st env).connectionState =
      (if env.apiKeyPresent then
        (if env.micGranted then ConnectionState.CONNECTING else ConnectionState.ERROR)
       else ConnectionState.ERROR) := by
  refine ⟨?_, ?_, ?_, ?_, ?_⟩
  · simp [toggleConnection]
  · simp [toggleConnection]
  · simp [toggleConnection]
  · simp [toggleConnection]
  · unfold connect
    cases hk : env.apiKeyPresent <;> cases hm : env.micGranted <;> simp [hk, hm]

/-- Core invariant of the playback scheduler over any fragment sequence
processed in arrival order: the output context is preserved, consecutive
scheduled buffers are back-to-back or later (no overlap), every scheduled
buffer starts no earlier than the device clock read at its scheduling and
exactly at `max` of the previous cursor and that clock, and the first
scheduled buffer starts no earlier than the initial cursor. -/
lemma runChunks_spec (chunks : List (ℚ × Option ℚ × Nat)) :
    ∀ (st : VCState) (c : Nat), st.outputAudioContext = some c →
      (runChunks st chunks).1.outputAudioContext = some c ∧
      List.Chain' (fun a b => a.start + a.dur ≤ b.start) (runChunks st chunks).2 ∧
      (∀ x ∈ (runChunks st chunks).2, x.ct ≤ x.start ∧ x.start = max x.prevNext x.ct) ∧
      (∀ y : Sched, ((runChunks st chunks).2).head? = some y →
        st.nextStartTime ≤ y.start) := by
  induction chunks with
  | nil =>
      intro st c hctx
      exact ⟨hctx, by simp [runChunks], by simp [runChunks], by simp [runChunks]⟩
  | cons chunk rest ih =>
      intro st c hctx
      obtain ⟨ct, dec, h⟩ := chunk
      cases dec with
      | none =>
          have hstep : scheduleChunk st ct none h =
              ({ st with nextStartTime := max st.nextStartTime ct }, none) := by
            simp [scheduleChunk, hctx]
          obtain ⟨ih1, ih2, ih3, ih4⟩ :=
            ih { st with nextStartTime := max st.nextStartTime ct } c hctx
          have hrun : runChunks st ((ct, none, h) :: rest) =
              runChunks { st with nextStartTime := max st.nextStartTime ct } rest := by
            simp [runChunks, hstep]
          rw [hrun]
          refine ⟨ih1, ih2, ih3, fun y hy => ?_⟩
          exact le_trans (le_max_left _ _) (ih4 y hy)
      | some d =>
          have hstep : scheduleChunk st ct (some d) h =
              ({ st with nextStartTime := max st.nextStartTime ct + d,
                         sources := insert h st.sources },
               some { ct := ct, prevNext := st.nextStartTime,
                      start := max st.nextStartTime ct, dur := d }) := by
            simp [scheduleChunk, hctx]
          obtain ⟨ih1, ih2, ih3, ih4⟩ :=
            ih { st with nextStartTime := max st.nextStartTime ct + d,
                         sources := insert h st.sources } c hctx
          have hrun : runChunks st ((ct, some d, h) :: rest) =
              ((runChunks { st with nextStartTime := max st.nextStartTime ct + d,
                                    sources := insert h st.sources } rest).1,
               { ct := ct, prevNext := st.nextStartTime,
                 start := max st.nextStartTime ct, dur := d } ::
                 (runChunks { st with nextStartTime := max st.nextStartTime ct + d,
                                      sources := insert h st.sources } rest).2) := by
            simp [runChunks, hstep]
          rw [hrun]
          refine ⟨ih1, ?_, ?_, ?_⟩
          · refine List.chain'_cons'.2 ⟨fun y hy => ?_, ih2⟩
            exact ih4 y (Option.mem_def.1 hy)
          · intro x hx
            rcases List.mem_cons.1 hx with hx | hx
            · subst hx
              exact ⟨le_max_right _ _, rfl⟩
            · exact ih3 x hx
          · intro y hy
            rw [List.head?_cons, Option.some_inj] at hy
            subst hy
            exact le_max_left _ _

/-- C1: over every sequence of inbound audio fragments processed in arrival
order (in a state whose output context is open), each successfully decoded
buffer is scheduled exactly at `max` of the playback cursor and the device
clock read at scheduling, the cursor is then advanced by exactly that
buffer's duration, consecutive scheduled buffers never overlap (each starts
no earlier than the previous start plus the previous duration), and no
buffer ever starts before the device clock read at its scheduling. -/
theorem claim_C1 (st : VCState) (chunks : List (ℚ × Option ℚ × Nat)) (c : Nat)
    (hctx : st.outputAudioContext = some c) :
    List.Chain' (fun a b => a.start + a.dur ≤ b.start) (runChunks st chunks).2 ∧
    (∀ x ∈ (runChunks st chunks).2, x.ct ≤ x.start ∧ x.start = max x.prevNext x.ct) ∧
    (∀ (ct d : ℚ) (h : Nat),
      scheduleChunk st ct (some d) h =
        ({ st with nextStartTime := max st.nextStartTime ct + d,
                   sources := insert h st.sources },
         some { ct := ct, prevNext := st.nextStartTime,
                start := max st.nextStartTime ct, dur := d })) := by
  obtain ⟨-, h2, h3, -⟩ := runChunks_spec chunks st c hctx
  exact ⟨h2, h3, fun ct d h => by simp [scheduleChunk, hctx]⟩

/-- A state with an open output audio context, as after a connect. -/
def stAudio : VCState := { initState with outputAudioContext := some 2 }

/-- Concrete fragment sequence for the C1 witness: a late-arriving fragment
(device clock 3 ahead of the cursor), a failing decode, and two more
successful decodes. -/
def chunksC1 : List (ℚ × Option ℚ × Nat) :=
  [(0, some 1, 10), (3, some 2, 11), (2, none, 12), (1, some 1, 13)]

/-- Witness for C1 at a concrete state and fragment sequence. -/
theorem claim_C1_witness :
    stAudio.outputAudioContext = some 2 ∧
    (List.Chain' (fun a b => a.start + a.dur ≤ b.start) (runChunks stAudio chunksC1).2 ∧
     (∀ x ∈ (runChunks stAudio chunksC1).2, x.ct ≤ x.start ∧ x.start = max x.prevNext x.ct) ∧
     (∀ (ct d : ℚ) (h : Nat),
       scheduleChunk stAudio ct (some d) h =
         ({ stAudio with nextStartTime := max stAudio.nextStartTime ct + d,
                         sources := insert h stAudio.sources },
          some { ct := ct, prevNext := stAudio.nextStartTime,
                 start := max stAudio.nextStartTime ct, dur := d }))) :=
  ⟨rfl, claim_C1 stAudio chunksC1 2 rfl⟩

/-- Refutation of C8 as stated: a fragment whose decode fails does leave a
trace on the playback cursor.  The assignment
`nextStartTimeRef.current = Math.max(nextStartTimeRef.current, ctx.currentTime)`
runs before the decode is awaited, so when the device clock (5) is ahead of
the cursor (0), the failed fragment's processing moves the cursor to 5 —
the claim says the cursor is left unchanged.  Nothing is logged by the
handler either (the console is unchanged; there is no catch around the
decode). -/
theorem claim_C8_counterexample :
    stAudio.nextStartTime = 0 ∧
    (scheduleChunk stAudio 5 none 7).1.nextStartTime = 5 ∧
    (scheduleChunk stAudio 5 none 7).2 = none ∧
    (scheduleChunk stAudio 5 none 7).1.console = stAudio.console ∧
    ¬ ((5 : ℚ) = 0) := by
  refine ⟨rfl, by decide, rfl, rfl, by norm_num⟩

/-- C8 (amended): for every inbound audio fragment whose decode fails, the
fragment is dropped — no buffer is scheduled for it, the playback-source
set, history and console are unchanged, and the cursor is not advanced by
any buffer duration, though it has already been raised to
`max(next, device current time)` before the decode; the failure is not
logged by the handler, and the session is not aborted: a subsequent
fragment is still decoded and scheduled normally. -/
theorem claim_C8 (st : VCState) (c : Nat) (ct ct₂ d₂ : ℚ) (h h₂ : Nat)
    (hctx : st.outputAudioContext = some c) :
    scheduleChunk st ct none h =
      ({ st with nextStartTime := max st.nextStartTime ct }, none) ∧
    (scheduleChunk st ct none h).1.sources = st.sources ∧
    (scheduleChunk st ct none h).1.console = st.console ∧
    (scheduleChunk st ct none h).1.history = st.history ∧
    (scheduleChunk (scheduleChunk st ct none h).1 ct₂ (some d₂) h₂).2 =
      some { ct := ct₂, prevNext := max st.nextStartTime ct,
             start := max (max st.nextStartTime ct) ct₂, dur := d₂ } := by
  have hstep : scheduleChunk st ct none h =
      ({ st with nextStartTime := max st.nextStartTime ct }, none) := by
    simp [scheduleChunk, hctx]
  refine ⟨hstep, by rw [hstep], by rw [hstep], by rw [hstep], ?_⟩
  rw [hstep]
  simp [scheduleChunk, hctx]

/-- Witness for C8 at a concrete state, clock values and handles. -/
theorem claim_C8_witness :
    stAudio.outputAudioContext = some 2 ∧
    (scheduleChunk stAudio 5 none 7 =
       ({ stAudio with nextStartTime := max stAudio.nextStartTime 5 }, none) ∧
     (scheduleChunk stAudio 5 none 7).1.sources = stAudio.sources ∧
     (scheduleChunk stAudio 5 none 7).1.console = stAudio.console ∧
     (scheduleChunk stAudio 5 none 7).1.history = stAudio.history ∧
     (scheduleChunk (scheduleChunk stAudio 5 none 7).1 1 (some 2) 8).2 =
       some { ct := 1, prevNext := max stAudio.nextStartTime 5,
              start := max (max stAudio.nextStartTime 5) 1, dur := 2 }) :=
  ⟨rfl, claim_C8 stAudio 2 5 1 2 7 8 rfl⟩

end VoiceCalc
